import Mathlib

/-!
Verification of the tortugas-strava-api core against its specification.

The Python sources are shallowly embedded: pure functions become Lean
functions, database state becomes explicit lists of rows, async functions
that only sleep or raise become functions returning the slept duration or
an exception value.  Naive datetimes are modelled by the structure DT
below; machine floats on the payload fields are modelled by rationals.
-/

/-- A naive civil datetime, as used by Python datetime objects in this code
base: day is the proleptic day number (day 0 chosen to be a Monday, matching
date(1,1,1).weekday() == 0 with day = toordinal - 1) and tod is the time of
day in microseconds.  Comparison of datetimes is lexicographic. -/
structure DT where
  day : Int
  tod : Nat
deriving DecidableEq, Repr

/-- datetime.__le__ : lexicographic on (day, time of day). -/
def DT.le (a b : DT) : Prop :=
  a.day < b.day ∨ (a.day = b.day ∧ a.tod ≤ b.tod)

/-- datetime.__lt__ : lexicographic on (day, time of day). -/
def DT.lt (a b : DT) : Prop :=
  a.day < b.day ∨ (a.day = b.day ∧ a.tod < b.tod)

instance (a b : DT) : Decidable (DT.le a b) := by
  unfold DT.le; infer_instance

instance (a b : DT) : Decidable (DT.lt a b) := by
  unfold DT.lt; infer_instance

/-- datetime.date() : the calendar day, dropping the time of day. -/
def DT.date (d : DT) : Int := d.day

/-- datetime.weekday() : 0 = Monday .. 6 = Sunday.  With day 0 a Monday this
is the day number modulo 7 (Int.emod, always in [0, 7)). -/
def DT.weekday (d : DT) : Int := d.day % 7

/-- Python round() on a rational: round half to even (banker's rounding). -/
def pyRound (q : Rat) : Int :=
  let f : Int := ⌊q⌋
  if q - f < 1/2 then f
  else if (1/2 : Rat) < q - f then f + 1
  else if f % 2 = 0 then f else f + 1

/-- src/scoring/calculator.py: calculate_base_points.
round(moving_time_seconds / 60): one point per minute, nearest integer. -/
def calculate_base_points (moving_time_seconds : Int) : Int :=
  pyRound ((moving_time_seconds : Rat) / 60)

/-- src/scoring/calculator.py: calculate_consistency_bonus.
BONUSES = {3: 300, 4: 350, 5: 400, 6: 400}; capped_days = min(days, 6);
BONUSES.get(capped_days, 0). -/
def calculate_consistency_bonus (days_active : Nat) : Int :=
  let capped_days := min days_active 6
  match capped_days with
  | 3 => 300
  | 4 => 350
  | 5 => 400
  | 6 => 400
  | _ => 0

/-- src/scoring/calculator.py: calculate_race_bonus (250 points per race). -/
def calculate_race_bonus (race_count : Int) : Int :=
  race_count * 250

/-- src/scoring/calculator.py: get_week_boundaries.
days_since_monday = date.weekday(); week_start = date - timedelta(days=..)
then .replace(hour=0, minute=0, second=0, microsecond=0);
week_end = week_start + timedelta(days=7). -/
def get_week_boundaries (date : DT) : DT × DT :=
  let days_since_monday := date.weekday
  let week_start : DT := ⟨date.day - days_since_monday, date.tod⟩
  let week_start : DT := ⟨week_start.day, 0⟩
  let week_end : DT := ⟨week_start.day + 7, week_start.tod⟩
  (week_start, week_end)

/-- Closed form for the consistency bonus, used in the monotonicity proof. -/
theorem consistency_bonus_closed (n : Nat) :
    calculate_consistency_bonus n =
      if 6 ≤ n then 400 else if n = 5 then 400 else if n = 4 then 350
      else if n = 3 then 300 else 0 := by
  unfold calculate_consistency_bonus
  rcases le_or_lt 6 n with h | h
  · simp [Nat.min_eq_right h, h]
  · interval_cases n <;> simp

/-- C7: for every datetime d, get_week_boundaries d = (start, end) with
start a Monday at 00:00:00, end = start + 7 days at 00:00:00, and
start ≤ d < end — a Monday-to-Monday half-open interval containing d,
in the same naive civil time as the input. -/
theorem C7_week_boundaries (d : DT) :
    (get_week_boundaries d).1.tod = 0 ∧
    (get_week_boundaries d).1.weekday = 0 ∧
    (get_week_boundaries d).2.day = (get_week_boundaries d).1.day + 7 ∧
    (get_week_boundaries d).2.tod = (get_week_boundaries d).1.tod ∧
    DT.le (get_week_boundaries d).1 d ∧
    DT.lt d (get_week_boundaries d).2 := by
  unfold get_week_boundaries DT.weekday DT.le DT.lt
  refine ⟨rfl, ?_, rfl, rfl, ?_, ?_⟩ <;> simp only <;> omega

/-- C8: calculate_consistency_bonus is monotonically non-decreasing, is
constant (400) for every input ≥ 6, returns 0 for 0–2 active days, 350 for
4 days, 400 for 5 days, and the input is capped at 6 before lookup. -/
theorem C8_consistency_bonus :
    Monotone calculate_consistency_bonus ∧
    (∀ n, 6 ≤ n → calculate_consistency_bonus n = calculate_consistency_bonus 6) ∧
    calculate_consistency_bonus 0 = 0 ∧
    calculate_consistency_bonus 1 = 0 ∧
    calculate_consistency_bonus 2 = 0 ∧
    calculate_consistency_bonus 4 = 350 ∧
    calculate_consistency_bonus 5 = 400 ∧
    (∀ n, 6 ≤ n → calculate_consistency_bonus n = 400) ∧
    (∀ n, calculate_consistency_bonus n = calculate_consistency_bonus (min n 6)) := by
  have hcl := consistency_bonus_closed
  refine ⟨?_, ?_, by decide, by decide, by decide, by decide, by decide, ?_, ?_⟩
  · intro a b hab
    rw [hcl a, hcl b]
    repeat' split
    all_goals omega
  · intro n hn
    rw [hcl n, hcl 6]
    simp [hn]
  · intro n hn
    rw [hcl n]
    simp [hn]
  · intro n
    rw [hcl n, hcl (min n 6)]
    repeat' split
    all_goals omega

/-- Witness for C8 at concrete inputs. -/
theorem C8_witness :
    calculate_consistency_bonus 2 ≤ calculate_consistency_bonus 5 ∧
    calculate_consistency_bonus 9 = 400 ∧
    calculate_consistency_bonus 11 = calculate_consistency_bonus (min 11 6) :=
  ⟨C8_consistency_bonus.1 (by decide),
   C8_consistency_bonus.2.2.2.2.2.2.2.1 9 (by decide),
   C8_consistency_bonus.2.2.2.2.2.2.2.2 11⟩

/-! ## Rate limiter (src/strava/rate_limiter.py) -/

/-- src/strava/schemas.py: RateLimitInfo. -/
structure RateLimitInfo where
  short_usage : Int
  long_usage : Int
  short_limit : Int
  long_limit : Int
deriving DecidableEq, Repr

/-- The priority an AsyncRateLimiter is constructed with. -/
inductive Priority where
  | low
  | medium
  | high
deriving DecidableEq, Repr

/-- AsyncRateLimiter.wait_if_needed, as the number of seconds slept
(asyncio.sleep durations; 0 when the method returns without sleeping).
The limiter state is its priority and current_limits snapshot. -/
def wait_if_needed (priority : Priority) (current_limits : Option RateLimitInfo) : Rat :=
  match current_limits with
  | none => 0
  | some limits =>
    if limits.long_limit ≤ limits.long_usage then 60
    else if limits.short_limit ≤ limits.short_usage then 30
    else
      match priority with
      | .high => 0
      | .medium =>
        let remaining := limits.short_limit - limits.short_usage
        if 0 < remaining then min (900 / (remaining : Rat)) 2 else 0
      | .low =>
        let remaining := limits.long_limit - limits.long_usage
        if 0 < remaining then min (86400 / (remaining : Rat)) 5 else 0

/-- Model of Python int(): parse every comma-separated piece of the header
value as an integer; none when any piece fails to parse. -/
def parseIntList (s : String) : Option (List Int) :=
  (s.splitOn ",").mapM String.toInt?

/-- str.lower() on one character; HTTP header names are ASCII, so ASCII
lowercasing is the relevant case. -/
def pyCharLower (c : Char) : Char :=
  if 65 ≤ c.toNat ∧ c.toNat ≤ 90 then Char.ofNat (c.toNat + 32) else c

/-- str.lower() on a string (ASCII). -/
def pyLower (s : String) : String := String.mk (s.data.map pyCharLower)

/-- dict built from key-value pairs, then looked up: the last pair whose key
matches wins (dict comprehension semantics for duplicate keys). -/
def lookupLast (l : List (String × String)) (k : String) : Option String :=
  ((l.filter (fun kv => kv.1 == k)).getLast?).map Prod.snd

/-- AsyncRateLimiter.update_limits: lowercase the header keys; if both
x-ratelimit-usage and x-ratelimit-limit are present, parse each as a
comma-separated int pair and replace the snapshot wholesale; if either is
missing, keep the previous snapshot (only a warning is logged).  A present
but malformed header value raises (ValueError from int() or IndexError from
usage[1]), modelled as Except.error. -/
def update_limits (current_limits : Option RateLimitInfo)
    (headers : List (String × String)) : Except String (Option RateLimitInfo) :=
  let headers_lower := headers.map (fun kv => (pyLower kv.1, kv.2))
  let usage_key := "x-ratelimit-usage"
  let limit_key := "x-ratelimit-limit"
  match lookupLast headers_lower usage_key, lookupLast headers_lower limit_key with
  | some usage_val, some limit_val =>
    match parseIntList usage_val, parseIntList limit_val with
    | some (u0 :: u1 :: _), some (l0 :: l1 :: _) =>
      Except.ok (some ⟨u0, u1, l0, l1⟩)
    | _, _ => Except.error "ValueError or IndexError while parsing headers"
  | _, _ => Except.ok current_limits

/-- C3 as stated is false: with the short window exactly at its limit but
the long window also at its limit, wait_if_needed sleeps the long recovery
interval (60 s), not the short one (30 s) — the long-window counters do
matter. -/
theorem C3_counterexample :
    (RateLimitInfo.mk 100 500 100 500).short_usage
        = (RateLimitInfo.mk 100 500 100 500).short_limit ∧
    wait_if_needed Priority.high (some (RateLimitInfo.mk 100 500 100 500)) = 60 ∧
    wait_if_needed Priority.high (some (RateLimitInfo.mk 100 500 100 500)) ≠ 30 := by
  refine ⟨rfl, ?_, ?_⟩ <;> simp [wait_if_needed]

/-- C3 amended: for every snapshot with shortUsage = shortLimit whose
long-window usage is below the long-window limit, wait_if_needed sleeps the
fixed short-window recovery interval (30 s) for every priority. -/
theorem C3_short_limit_wait (priority : Priority) (limits : RateLimitInfo)
    (hshort : limits.short_usage = limits.short_limit)
    (hlong : limits.long_usage < limits.long_limit) :
    wait_if_needed priority (some limits) = 30 := by
  show (if limits.long_limit ≤ limits.long_usage then (60 : Rat)
    else if limits.short_limit ≤ limits.short_usage then 30
    else
      match priority with
      | .high => 0
      | .medium =>
        let remaining := limits.short_limit - limits.short_usage
        if 0 < remaining then min (900 / (remaining : Rat)) 2 else 0
      | .low =>
        let remaining := limits.long_limit - limits.long_usage
        if 0 < remaining then min (86400 / (remaining : Rat)) 5 else 0) = 30
  rw [if_neg (by omega), if_pos (by omega)]

/-- Witness for C3 at a concrete snapshot and priority. -/
theorem C3_witness :
    wait_if_needed Priority.medium (some (RateLimitInfo.mk 5 3 5 10)) = 30 :=
  C3_short_limit_wait Priority.medium (RateLimitInfo.mk 5 3 5 10) (by decide) (by decide)

/-- Looking a key up in a pair list with no matching key yields nothing. -/
theorem lookupLast_eq_none (l : List (String × String)) (k : String)
    (h : ∀ kv ∈ l, kv.1 ≠ k) : lookupLast l k = none := by
  unfold lookupLast
  have hfil : l.filter (fun kv => kv.1 == k) = [] := by
    rw [List.filter_eq_nil_iff]
    intro kv hkv
    simpa using h kv hkv
  rw [hfil]
  rfl

/-- C9: if the usage header or the limit header is absent (matching the
lowercased key names), update_limits returns the previous snapshot exactly
unchanged and does not raise. -/
theorem C9_update_limits_frame (current_limits : Option RateLimitInfo)
    (headers : List (String × String))
    (habsent : (∀ kv ∈ headers, pyLower kv.1 ≠ "x-ratelimit-usage") ∨
               (∀ kv ∈ headers, pyLower kv.1 ≠ "x-ratelimit-limit")) :
    update_limits current_limits headers = Except.ok current_limits := by
  show (match
      lookupLast (headers.map (fun kv => (pyLower kv.1, kv.2))) "x-ratelimit-usage",
      lookupLast (headers.map (fun kv => (pyLower kv.1, kv.2))) "x-ratelimit-limit" with
    | some usage_val, some limit_val =>
      match parseIntList usage_val, parseIntList limit_val with
      | some (u0 :: u1 :: _), some (l0 :: l1 :: _) =>
        Except.ok (some ⟨u0, u1, l0, l1⟩)
      | _, _ =>
        (Except.error "ValueError or IndexError while parsing headers" :
          Except String (Option RateLimitInfo))
    | _, _ => Except.ok current_limits) = Except.ok current_limits
  rcases habsent with h | h
  · have hnone : lookupLast (headers.map (fun kv => (pyLower kv.1, kv.2)))
        "x-ratelimit-usage" = none := by
      apply lookupLast_eq_none
      intro kv hkv
      rcases List.mem_map.mp hkv with ⟨kv0, hkv0, rfl⟩
      exact h kv0 hkv0
    rw [hnone]
  · have hnone : lookupLast (headers.map (fun kv => (pyLower kv.1, kv.2)))
        "x-ratelimit-limit" = none := by
      apply lookupLast_eq_none
      intro kv hkv
      rcases List.mem_map.mp hkv with ⟨kv0, hkv0, rfl⟩
      exact h kv0 hkv0
    rw [hnone]
    rcases hu : lookupLast (headers.map (fun kv => (pyLower kv.1, kv.2)))
        "x-ratelimit-usage" with _ | v <;> rw [hu]

/-- Witness for C9: a stale snapshot survives a header map with no
rate-limit headers. -/
theorem C9_witness :
    update_limits (some (RateLimitInfo.mk 1 2 3 4)) [("Content-Type", "json")]
      = Except.ok (some (RateLimitInfo.mk 1 2 3 4)) :=
  C9_update_limits_frame (some (RateLimitInfo.mk 1 2 3 4)) [("Content-Type", "json")]
    (Or.inl (by decide))

/-! ## Remote API client (src/strava/client.py) -/

/-- The observable limiter interactions of AsyncStravaClient._request, in
program order. -/
inductive ClientEvent where
  | updateLimits
  | classifyStatus
  | waitIfNeeded
deriving DecidableEq, Repr

/-- src/strava/exceptions.py: the classified error kinds. -/
inductive StravaError where
  | objectNotFound (msg : String)
  | accessUnauthorized (msg : String)
  | rateLimitExceeded (msg : String)
  | stravaException (msg : String)
deriving DecidableEq, Repr

/-- An HTTP response as _request and _handle_errors observe it:
json_message is response.json().get("message") when the body parses as a
JSON object carrying one, otherwise none; text is response.text. -/
structure HttpResponse where
  status_code : Nat
  json_message : Option String
  text : String
deriving DecidableEq, Repr

/-- httpx Response.is_success: a 2xx status. -/
def is_success (status_code : Nat) : Bool :=
  200 ≤ status_code && status_code < 300

/-- error_msg = error_data.get("message", response.text), falling back to
response.text when the body is not parseable JSON. -/
def error_message (r : HttpResponse) : String :=
  match r.json_message with
  | some m => m
  | none => r.text

/-- AsyncStravaClient._handle_errors: none on success, otherwise the raised
exception, selected by status code. -/
def handle_errors (r : HttpResponse) : Option StravaError :=
  if is_success r.status_code then none
  else
    let error_msg := error_message r
    if r.status_code == 404 then
      some (.objectNotFound ("Not found: " ++ error_msg))
    else if r.status_code == 401 then
      some (.accessUnauthorized ("Unauthorized: " ++ error_msg))
    else if r.status_code == 429 then
      some (.rateLimitExceeded ("Rate limit exceeded: " ++ error_msg))
    else if 400 ≤ r.status_code && r.status_code < 500 then
      some (.stravaException
        ("Client error " ++ toString r.status_code ++ ": " ++ error_msg))
    else if 500 ≤ r.status_code && r.status_code < 600 then
      some (.stravaException
        ("Server error " ++ toString r.status_code ++ ": " ++ error_msg))
    else
      some (.stravaException
        ("Unknown error " ++ toString r.status_code ++ ": " ++ error_msg))

/-- AsyncStravaClient._request after the HTTP roundtrip has produced r:
update_limits on the headers, then _handle_errors (whose exception, if any,
propagates immediately), then wait_if_needed, then return the parsed body
({} on 204).  The first component records the limiter interactions in
order; the second is the outcome. -/
def request_trace (r : HttpResponse) : List ClientEvent × Except StravaError String :=
  let events := [ClientEvent.updateLimits]
  let events := events ++ [ClientEvent.classifyStatus]
  match handle_errors r with
  | some err => (events, Except.error err)
  | none =>
    (events ++ [ClientEvent.waitIfNeeded],
     if r.status_code == 204 then Except.ok "{}" else Except.ok r.text)

/-- C4 as stated is false: on a 404 response the classified error is raised
before wait_if_needed runs, so the client returns control by raising with
no waitIfNeeded invocation after the call. -/
theorem C4_counterexample :
    (request_trace (HttpResponse.mk 404 none "missing")).2
      = Except.error (StravaError.objectNotFound "Not found: missing") ∧
    ClientEvent.waitIfNeeded ∉ (request_trace (HttpResponse.mk 404 none "missing")).1 := by
  constructor
  · rfl
  · decide

/-- C4 amended: every call updates the rate limiter first, then classifies
the status; on a success status it then invokes wait_if_needed before
returning normally, while on an error status the classified error is raised
directly and wait_if_needed is not invoked on that path. -/
theorem C4_request_trace (r : HttpResponse) :
    (request_trace r).1.take 2 = [ClientEvent.updateLimits, ClientEvent.classifyStatus] ∧
    (is_success r.status_code = true →
      (request_trace r).1
          = [ClientEvent.updateLimits, ClientEvent.classifyStatus,
             ClientEvent.waitIfNeeded] ∧
      ∃ body, (request_trace r).2 = Except.ok body) ∧
    (is_success r.status_code = false →
      (request_trace r).1 = [ClientEvent.updateLimits, ClientEvent.classifyStatus] ∧
      ∃ err, (request_trace r).2 = Except.error err) := by
  refine ⟨?_, ?_, ?_⟩
  · rcases h : handle_errors r with _ | err <;> simp [request_trace, h]
  · intro hs
    have hnone : handle_errors r = none := by
      unfold handle_errors
      rw [if_pos hs]
    constructor
    · simp [request_trace, hnone]
    · simp only [request_trace, hnone]
      split
      · exact ⟨"{}", rfl⟩
      · exact ⟨r.text, rfl⟩
  · intro hs
    have hsome : ∃ err, handle_errors r = some err := by
      unfold handle_errors
      rw [if_neg (by simp [hs])]
      split
      · exact ⟨_, rfl⟩
      · split
        · exact ⟨_, rfl⟩
        · split
          · exact ⟨_, rfl⟩
          · split
            · exact ⟨_, rfl⟩
            · split
              · exact ⟨_, rfl⟩
              · exact ⟨_, rfl⟩
    rcases hsome with ⟨err, herr⟩
    refine ⟨?_, err, ?_⟩ <;> simp [request_trace, herr]

/-- Witness for C4 on a concrete success response and a concrete error
response. -/
theorem C4_witness :
    ((request_trace (HttpResponse.mk 200 none "body")).1
        = [ClientEvent.updateLimits, ClientEvent.classifyStatus,
           ClientEvent.waitIfNeeded] ∧
      ∃ body, (request_trace (HttpResponse.mk 200 none "body")).2 = Except.ok body) ∧
    ((request_trace (HttpResponse.mk 500 none "boom")).1
        = [ClientEvent.updateLimits, ClientEvent.classifyStatus] ∧
      ∃ err, (request_trace (HttpResponse.mk 500 none "boom")).2 = Except.error err) :=
  ⟨(C4_request_trace (HttpResponse.mk 200 none "body")).2.1 (by decide),
   (C4_request_trace (HttpResponse.mk 500 none "boom")).2.2 (by decide)⟩

/-! ## Activity store (src/activities/models.py, src/activities/service.py) -/

/-- src/strava/schemas.py: ActivitySchema, the validated payload from the
Strava API.  The athlete dict is represented by the only key the service
reads, athlete["id"]. -/
structure ActivitySchema where
  id : Int
  name : String
  distance : Rat
  moving_time : Int
  elapsed_time : Int
  total_elevation_gain : Rat
  type : String
  sport_type : String
  start_date : DT
  start_date_local : DT
  timezone : String
  athlete_id : Int
  kudos_count : Option Int
  comment_count : Option Int
  athlete_count : Option Int
  average_speed : Option Rat
  max_speed : Option Rat
  workout_type : Option Int
deriving DecidableEq, Repr

/-- src/activities/models.py: one row of the activities table.  raw_data
holds the wholesale payload snapshot (model_dump of the schema); the
manual/private/flagged flags are never set by the service and keep their
column default False.  "private" is a Lean keyword, hence private_flag. -/
structure Activity where
  id : Int
  athlete_id : Int
  name : String
  type : String
  sport_type : String
  workout_type : Option Int
  distance : Rat
  moving_time : Int
  elapsed_time : Int
  total_elevation_gain : Rat
  average_speed : Option Rat
  max_speed : Option Rat
  start_date : DT
  start_date_local : DT
  timezone : String
  kudos_count : Int
  comment_count : Int
  athlete_count : Int
  manual : Bool
  private_flag : Bool
  flagged : Bool
  raw_data : ActivitySchema
  created_at : Int
  updated_at : Int
deriving DecidableEq, Repr

/-- Python "x or d" on an optional integer: d when x is None and also when
x is 0 (0 is falsy). -/
def pyOrInt (x : Option Int) (d : Int) : Int :=
  match x with
  | none => d
  | some n => if n = 0 then d else n

/-- ActivityService.get_activity: select by primary key.  The invariant of
one row per remote ID (proved below) makes find? agree with
scalar_one_or_none. -/
def get_activity (db : List Activity) (activity_id : Int) : Option Activity :=
  db.find? (fun a => a.id == activity_id)

/-- The row ActivityService.create_activity inserts when the activity is
absent: all payload fields plus the raw snapshot, created_at and
updated_at set to the commit time, flags left at their column default. -/
def new_activity (activity_data : ActivitySchema) (now : Int) : Activity :=
  { id := activity_data.id
    athlete_id := activity_data.athlete_id
    name := activity_data.name
    type := activity_data.type
    sport_type := activity_data.sport_type
    workout_type := activity_data.workout_type
    distance := activity_data.distance
    moving_time := activity_data.moving_time
    elapsed_time := activity_data.elapsed_time
    total_elevation_gain := activity_data.total_elevation_gain
    average_speed := activity_data.average_speed
    max_speed := activity_data.max_speed
    start_date := activity_data.start_date
    start_date_local := activity_data.start_date_local
    timezone := activity_data.timezone
    kudos_count := pyOrInt activity_data.kudos_count 0
    comment_count := pyOrInt activity_data.comment_count 0
    athlete_count := pyOrInt activity_data.athlete_count 1
    manual := false
    private_flag := false
    flagged := false
    raw_data := activity_data
    created_at := now
    updated_at := now }

/-- ActivityService.update_activity on one fetched row: overwrite the
fields listed in the source (name through raw_data) and refresh
updated_at; id, athlete_id, start_date, start_date_local, timezone, the
flags and created_at are not assigned. -/
def update_activity (activity : Activity) (activity_data : ActivitySchema)
    (now : Int) : Activity :=
  { activity with
    name := activity_data.name
    type := activity_data.type
    sport_type := activity_data.sport_type
    workout_type := activity_data.workout_type
    distance := activity_data.distance
    moving_time := activity_data.moving_time
    elapsed_time := activity_data.elapsed_time
    total_elevation_gain := activity_data.total_elevation_gain
    average_speed := activity_data.average_speed
    max_speed := activity_data.max_speed
    kudos_count := pyOrInt activity_data.kudos_count 0
    comment_count := pyOrInt activity_data.comment_count 0
    athlete_count := pyOrInt activity_data.athlete_count 1
    raw_data := activity_data
    updated_at := now }

/-- The effect of committing update_activity on the stored table: the row
with the payload's id is replaced by its updated version. -/
def apply_update (db : List Activity) (activity_data : ActivitySchema)
    (now : Int) : List Activity :=
  db.map (fun a =>
    if a.id == activity_data.id then update_activity a activity_data now else a)

/-- ActivityService.create_activity on the stored table: if a row with the
payload's remote ID exists, delegate to update_activity, else insert the
new row.  This is the store adapter's upsert. -/
def create_activity (db : List Activity) (activity_data : ActivitySchema)
    (now : Int) : List Activity :=
  match get_activity db activity_data.id with
  | some _ => apply_update db activity_data now
  | none => db ++ [new_activity activity_data now]

/-- One row per remote ID: all ids in the table are distinct. -/
def uniqueIds (db : List Activity) : Prop :=
  List.Pairwise (fun a b => a.id ≠ b.id) db

/-- A row with updated_at scrubbed, for updated_at-independent equality. -/
def scrub_updated_at (a : Activity) : Activity :=
  { a with updated_at := 0 }

/-- An update never changes the primary key. -/
theorem update_activity_id (a : Activity) (p : ActivitySchema) (t : Int) :
    (update_activity a p t).id = a.id := rfl

/-- Under the one-row-per-id invariant, the select-by-id finds the member
row with that id. -/
theorem get_activity_of_mem (db : List Activity) (p_id : Int) (a : Activity)
    (hu : uniqueIds db) (ha : a ∈ db) (hid : a.id = p_id) :
    get_activity db p_id = some a := by
  induction db with
  | nil => cases ha
  | cons b l ih =>
    unfold get_activity at *
    rcases List.pairwise_cons.mp hu with ⟨hb, hl⟩
    by_cases hbid : b.id = p_id
    · have hab : a = b := by
        rcases List.mem_cons.mp ha with rfl | hal
        · rfl
        · exact absurd (hbid.trans hid.symm) (hb a hal)
      subst hab
      simp [List.find?_cons, hbid]
    · have hal : a ∈ l := by
        rcases List.mem_cons.mp ha with rfl | hal
        · exact absurd hid hbid
        · exact hal
      have hbf : (b.id == p_id) = false := by simpa using hbid
      simp only [List.find?_cons, hbf]
      exact ih hl hal

/-- Selecting the updated id after apply_update yields the updated version
of the member row, under the invariant. -/
theorem get_apply_update (db : List Activity) (p : ActivitySchema) (t : Int)
    (a : Activity) (hu : uniqueIds db) (ha : a ∈ db) (hid : a.id = p.id) :
    get_activity (apply_update db p t) p.id = some (update_activity a p t) := by
  induction db with
  | nil => cases ha
  | cons b l ih =>
    rcases List.pairwise_cons.mp hu with ⟨hb, hl⟩
    unfold apply_update at *
    simp only [List.map_cons]
    by_cases hbid : b.id = p.id
    · have hab : a = b := by
        rcases List.mem_cons.mp ha with rfl | hal
        · rfl
        · exact absurd (hbid.trans hid.symm) (hb a hal)
      subst hab
      unfold get_activity
      rw [if_pos (by simpa using hbid)]
      simp [List.find?_cons, update_activity_id, hbid]
    · have hal : a ∈ l := by
        rcases List.mem_cons.mp ha with rfl | hal
        · exact absurd hid hbid
        · exact hal
      unfold get_activity at *
      have hbf : (b.id == p.id) = false := by simpa using hbid
      simp only [List.find?_cons, hbf, if_false, Bool.false_eq_true, update_activity_id]
      exact ih hl hal

/-- When no row carries the id, apply_update is the identity. -/
theorem apply_update_of_absent (db : List Activity) (p : ActivitySchema)
    (t : Int) (h : ∀ a ∈ db, a.id ≠ p.id) :
    apply_update db p t = db := by
  unfold apply_update
  have hpt : ∀ a ∈ db, (if a.id == p.id then update_activity a p t else a) = a := by
    intro a ha
    rw [if_neg (by simpa using h a ha)]
  rw [List.map_congr_left hpt]
  simp

/-- Appending rows that cannot match lets the select fall through. -/
theorem get_activity_append (db l : List Activity) (p_id : Int)
    (h : get_activity db p_id = none) :
    get_activity (db ++ l) p_id = get_activity l p_id := by
  unfold get_activity at *
  induction db with
  | nil => rfl
  | cons b d ih =>
    simp only [List.find?_cons, List.cons_append] at *
    rcases hb : (b.id == p_id) with _ | _
    · rw [hb] at h
      simp only [Bool.false_eq_true, if_false] at h ⊢
      exact ih h
    · rw [hb] at h
      simp at h

/-- The id of a row after the per-row upsert step of apply_update. -/
theorem apply_update_elem_id (p : ActivitySchema) (t : Int) (x : Activity) :
    (if x.id == p.id then update_activity x p t else x).id = x.id := by
  split <;> rfl

/-- Under the invariant, a table containing a row with the given id has
exactly one such row. -/
theorem countP_id_unique (db : List Activity) (p_id : Int) (a : Activity)
    (hu : uniqueIds db) (ha : a ∈ db) (hid : a.id = p_id) :
    db.countP (fun b => b.id == p_id) = 1 := by
  induction db with
  | nil => cases ha
  | cons b l ih =>
    rcases List.pairwise_cons.mp hu with ⟨hb, hl⟩
    by_cases hbid : b.id = p_id
    · have h0 : l.countP (fun b => b.id == p_id) = 0 := by
        apply List.countP_eq_zero.mpr
        intro x hx
        have := hb x hx
        simp only [beq_iff_eq]
        omega
      rw [List.countP_cons, h0]
      simp [hbid]
    · have hal : a ∈ l := by
        rcases List.mem_cons.mp ha with rfl | hal
        · exact absurd hid hbid
        · exact hal
      rw [List.countP_cons, ih hl hal]
      simp [hbid]

/-- Per-payload part of the C1 counterexample: a first payload... -/
def cexPayload1 : ActivitySchema :=
  { id := 10, name := "morning run", distance := 5000, moving_time := 1800,
    elapsed_time := 1900, total_elevation_gain := 10, type := "Run",
    sport_type := "Run", start_date := ⟨738000, 0⟩,
    start_date_local := ⟨738000, 21600000000⟩, timezone := "UTC",
    athlete_id := 42, kudos_count := none, comment_count := none,
    athlete_count := none, average_speed := none, max_speed := none,
    workout_type := none }

/-- ...and a second payload for the same remote activity whose (edited)
local start time differs. -/
def cexPayload2 : ActivitySchema :=
  { cexPayload1 with start_date_local := ⟨738001, 0⟩ }

/-- C1 as stated is false: the update path does not overwrite every mutable
payload field.  Re-syncing activity 10 with an edited local start time
leaves the stored start_date_local at its original value, differing from
the payload — update is not a full field overwrite. -/
theorem C1_counterexample :
    cexPayload2.start_date_local ≠ cexPayload1.start_date_local ∧
    (∃ a ∈ create_activity (create_activity [] cexPayload1 100) cexPayload2 200,
      a.id = cexPayload2.id ∧ a.start_date_local ≠ cexPayload2.start_date_local) := by
  constructor
  · decide
  · decide

/-- C1 amended: create_activity is an idempotent upsert keyed on the remote
ID — absent means insert exactly one fresh row, present means overwrite of
the mutable fields listed in update_activity (name, type, sport_type,
workout_type, metrics, speeds, social counters, raw snapshot) with
created_at, start_date, start_date_local and timezone untouched; applying
the same payload twice leaves the table identical up to updated_at; and
any create/update keeps exactly one row per remote ID. -/
theorem C1_upsert_amended (db : List Activity) (p : ActivitySchema)
    (t t' : Int) (a : Activity) :
    (get_activity db p.id = none →
      create_activity db p t = db ++ [new_activity p t]) ∧
    (uniqueIds db → a ∈ db → a.id = p.id →
      create_activity db p t = apply_update db p t ∧
      get_activity (create_activity db p t) p.id = some (update_activity a p t)) ∧
    ((update_activity a p t).name = p.name ∧
     (update_activity a p t).type = p.type ∧
     (update_activity a p t).sport_type = p.sport_type ∧
     (update_activity a p t).workout_type = p.workout_type ∧
     (update_activity a p t).distance = p.distance ∧
     (update_activity a p t).moving_time = p.moving_time ∧
     (update_activity a p t).elapsed_time = p.elapsed_time ∧
     (update_activity a p t).total_elevation_gain = p.total_elevation_gain ∧
     (update_activity a p t).average_speed = p.average_speed ∧
     (update_activity a p t).max_speed = p.max_speed ∧
     (update_activity a p t).kudos_count = pyOrInt p.kudos_count 0 ∧
     (update_activity a p t).comment_count = pyOrInt p.comment_count 0 ∧
     (update_activity a p t).athlete_count = pyOrInt p.athlete_count 1 ∧
     (update_activity a p t).raw_data = p ∧
     (update_activity a p t).updated_at = t ∧
     (update_activity a p t).created_at = a.created_at ∧
     (update_activity a p t).id = a.id ∧
     (update_activity a p t).athlete_id = a.athlete_id ∧
     (update_activity a p t).start_date = a.start_date ∧
     (update_activity a p t).start_date_local = a.start_date_local ∧
     (update_activity a p t).timezone = a.timezone) ∧
    (uniqueIds db →
      (create_activity (create_activity db p t) p t').map scrub_updated_at
        = (create_activity db p t).map scrub_updated_at) ∧
    (uniqueIds db →
      uniqueIds (create_activity db p t) ∧
      (create_activity db p t).countP (fun b => b.id == p.id) = 1) := by
  refine ⟨?_, ?_, ?_, ?_, ?_⟩
  · intro h
    unfold create_activity
    rw [h]
  · intro hu ha hid
    have hsome := get_activity_of_mem db p.id a hu ha hid
    have h1 : create_activity db p t = apply_update db p t := by
      unfold create_activity
      rw [hsome]
    exact ⟨h1, by rw [h1]; exact get_apply_update db p t a hu ha hid⟩
  · exact ⟨rfl, rfl, rfl, rfl, rfl, rfl, rfl, rfl, rfl, rfl, rfl, rfl, rfl,
      rfl, rfl, rfl, rfl, rfl, rfl, rfl, rfl⟩
  · intro hu
    cases h : get_activity db p.id with
    | none =>
      have habs : ∀ b ∈ db, b.id ≠ p.id := by
        intro b hb
        have := List.find?_eq_none.mp h b hb
        simpa using this
      have h1 : create_activity db p t = db ++ [new_activity p t] := by
        unfold create_activity
        rw [h]
      have h2 : get_activity (db ++ [new_activity p t]) p.id
          = some (new_activity p t) := by
        rw [get_activity_append db _ p.id h]
        unfold get_activity
        simp [List.find?_cons, show (new_activity p t).id = p.id from rfl]
      rw [h1]
      unfold create_activity
      rw [h2]
      have h3 : apply_update (db ++ [new_activity p t]) p t'
          = db ++ [update_activity (new_activity p t) p t'] := by
        unfold apply_update
        rw [List.map_append]
        congr 1
        · exact apply_update_of_absent db p t' habs
        · simp [show (new_activity p t).id = p.id from rfl]
      rw [h3, List.map_append, List.map_append]
      congr 1
    | some a0 =>
      have ha0 : a0 ∈ db := List.mem_of_find?_eq_some h
      have hida : a0.id = p.id := by simpa using List.find?_some h
      have h1 : create_activity db p t = apply_update db p t := by
        unfold create_activity
        rw [h]
      have h2 : get_activity (apply_update db p t) p.id
          = some (update_activity a0 p t) :=
        get_apply_update db p t a0 hu ha0 hida
      rw [h1]
      unfold create_activity
      rw [h2]
      unfold apply_update
      simp only [List.map_map]
      apply List.map_congr_left
      intro b hb
      by_cases hbid : b.id = p.id
      · have hbt : (b.id == p.id) = true := by simpa using hbid
        simp only [Function.comp, hbt, if_true, update_activity_id]
        rfl
      · have hbf : (b.id == p.id) = false := by simpa using hbid
        simp only [Function.comp, hbf, Bool.false_eq_true, if_false]
  · intro hu
    constructor
    · cases h : get_activity db p.id with
      | none =>
        unfold create_activity
        rw [h]
        unfold uniqueIds at *
        rw [List.pairwise_append]
        refine ⟨hu, List.pairwise_singleton _ _, ?_⟩
        intro x hx y hy
        rcases List.mem_singleton.mp hy with rfl
        have := List.find?_eq_none.mp h x hx
        simpa using this
      | some a0 =>
        unfold create_activity
        rw [h]
        unfold apply_update uniqueIds at *
        apply hu.map
        intro x y hxy
        rw [apply_update_elem_id, apply_update_elem_id]
        exact hxy
    · cases h : get_activity db p.id with
      | none =>
        unfold create_activity
        rw [h, List.countP_append]
        have h0 : db.countP (fun b => b.id == p.id) = 0 := by
          apply List.countP_eq_zero.mpr
          intro b hb
          have := List.find?_eq_none.mp h b hb
          simpa using this
        rw [h0]
        simp [show (new_activity p t).id = p.id from rfl]
      | some a0 =>
        have ha0 : a0 ∈ db := List.mem_of_find?_eq_some h
        have hida : a0.id = p.id := by simpa using List.find?_some h
        unfold create_activity
        rw [h]
        unfold apply_update
        rw [List.countP_map]
        have hc : db.countP ((fun b => b.id == p.id) ∘ fun a =>
            if a.id == p.id then update_activity a p t else a)
            = db.countP (fun b => b.id == p.id) := by
          apply List.countP_congr
          intro x hx
          simp only [Function.comp, apply_update_elem_id]
        rw [hc]
        exact countP_id_unique db p.id a0 hu ha0 hida

/-- Witness for C1 at a concrete table and payload. -/
theorem C1_witness :
    create_activity [] cexPayload1 100 = [] ++ [new_activity cexPayload1 100] ∧
    uniqueIds (create_activity [] cexPayload1 100) ∧
    (create_activity [] cexPayload1 100).countP
      (fun b => b.id == cexPayload1.id) = 1 :=
  ⟨(C1_upsert_amended [] cexPayload1 100 0 (new_activity cexPayload1 100)).1 rfl,
   ((C1_upsert_amended [] cexPayload1 100 0 (new_activity cexPayload1 100)).2.2.2.2
      List.Pairwise.nil).1,
   ((C1_upsert_amended [] cexPayload1 100 0 (new_activity cexPayload1 100)).2.2.2.2
      List.Pairwise.nil).2⟩

/-! ## Scoring service (src/scoring/service.py) -/

/-- src/auth/models.py: the user row fields the scoring service reads. -/
structure User where
  id : Int
  firstname : String
  lastname : String
deriving DecidableEq, Repr

/-- src/scoring/schemas.py: LeaderboardEntry. -/
structure LeaderboardEntry where
  athlete_id : Int
  athlete_name : String
  base_points : Int
  consistency_bonus : Int
  race_bonus : Int
  total_points : Int
  days_active : Nat
  race_count : Int
  total_time : Rat
  total_distance : Rat
  avg_pace : Option Rat
deriving DecidableEq, Repr

/-- The WHERE clause of the leaderboard queries: coarse type "Run" and
local start time in the half-open period. -/
def runFilter (start_date end_date : DT) (a : Activity) : Bool :=
  a.type == "Run" && decide (DT.le start_date a.start_date_local)
    && decide (DT.lt a.start_date_local end_date)

/-- The ORDER BY athlete_id, start_date_local of the leaderboard queries,
as a total preorder. -/
def activityOrder (x y : Activity) : Prop :=
  x.athlete_id < y.athlete_id ∨
    (x.athlete_id = y.athlete_id ∧ DT.le x.start_date_local y.start_date_local)

instance (x y : Activity) : Decidable (activityOrder x y) := by
  unfold activityOrder; infer_instance

instance : IsTotal Activity activityOrder := by
  constructor
  intro a b
  unfold activityOrder DT.le
  omega

instance : IsTrans Activity activityOrder := by
  constructor
  intro a b c hab hbc
  unfold activityOrder DT.le at *
  omega

/-- The SELECT feeding both leaderboard computations: Run activities in the
period, ordered by (athlete_id, start_date_local).  A stable sort realises
one of the row orders the SQL query may return; every use below is
insensitive to the order within equal keys. -/
def queryRunActivities (db : List Activity) (start_date end_date : DT) :
    List Activity :=
  List.insertionSort activityOrder (db.filter (runFilter start_date end_date))

/-- The per-athlete score computation shared verbatim by
get_weekly_leaderboard and get_range_leaderboard (lines 84-132 and
195-243 of src/scoring/service.py). -/
def mkEntry (athlete_id : Int) (user : User) (athlete_acts : List Activity) :
    LeaderboardEntry :=
  let base_points :=
    (athlete_acts.map (fun a => calculate_base_points a.moving_time)).sum
  let total_time_seconds := (athlete_acts.map (fun a => a.moving_time)).sum
  let total_time : Rat := (total_time_seconds : Rat) / 3600
  let total_distance_meters := (athlete_acts.map (fun a => a.distance)).sum
  let total_distance := total_distance_meters / 1000
  let avg_pace : Option Rat :=
    if 0 < total_distance then
      some (((total_time_seconds : Rat) / 60) / total_distance)
    else none
  let unique_dates := (athlete_acts.map (fun a => a.start_date_local.date)).dedup
  let days_active := unique_dates.length
  let race_count : Int :=
    ((athlete_acts.filter (fun a => a.workout_type == some 1)).length : Int)
  let consistency_bonus := calculate_consistency_bonus days_active
  let race_bonus := calculate_race_bonus race_count
  let total_points := base_points + consistency_bonus + race_bonus
  { athlete_id := athlete_id
    athlete_name := user.firstname ++ " " ++ user.lastname
    base_points := base_points
    consistency_bonus := consistency_bonus
    race_bonus := race_bonus
    total_points := total_points
    days_active := days_active
    race_count := race_count
    total_time := total_time
    total_distance := total_distance
    avg_pace := avg_pace }

/-- The total the per-athlete computation assigns to a list of
activities, stated independently of the user row. -/
def totalPointsOf (athlete_acts : List Activity) : Int :=
  (athlete_acts.map (fun a => calculate_base_points a.moving_time)).sum
    + calculate_consistency_bonus
        ((athlete_acts.map (fun a => a.start_date_local.date)).dedup).length
    + calculate_race_bonus
        ((athlete_acts.filter (fun a => a.workout_type == some 1)).length : Int)

/-- leaderboard.sort(key total_points, reverse=True) as a total preorder:
descending totals. -/
def entryOrder (x y : LeaderboardEntry) : Prop :=
  y.total_points ≤ x.total_points

instance (x y : LeaderboardEntry) : Decidable (entryOrder x y) := by
  unfold entryOrder; infer_instance

instance : IsTotal LeaderboardEntry entryOrder := by
  constructor
  intro a b
  unfold entryOrder
  omega

instance : IsTrans LeaderboardEntry entryOrder := by
  constructor
  intro a b c hab hbc
  unfold entryOrder at *
  omega

/-- The loop body shared by both leaderboard computations for one athlete
group: skip when the athlete has no user row, compute the entry from the
athlete's block of the queried activities, keep it only when the total is
over zero. -/
def leaderboardEntryFor (users : List User) (activities : List Activity)
    (aid : Int) : Option LeaderboardEntry :=
  match users.find? (fun u => u.id == aid) with
  | none => none
  | some user =>
    let athlete_acts := activities.filter (fun a => a.athlete_id == aid)
    let entry := mkEntry aid user athlete_acts
    if 0 < entry.total_points then some entry else none

/-- ScoringService.get_range_leaderboard: query Run activities in range,
group contiguously by athlete (itertools.groupby over the athlete-ordered
rows, rendered as first-occurrence keys with their filtered blocks), skip
athletes without a user row, keep entries with total over zero, then a
stable descending sort on total points. -/
def get_range_leaderboard (db : List Activity) (users : List User)
    (start_date end_date : DT) : List LeaderboardEntry :=
  let activities := queryRunActivities db start_date end_date
  let athlete_ids := (activities.map (fun a => a.athlete_id)).dedup
  let entries := athlete_ids.filterMap (leaderboardEntryFor users activities)
  List.insertionSort entryOrder entries

/-- ScoringService.get_weekly_leaderboard: the same computation applied to
the get_week_boundaries window of the given date (the code inlines an
identical copy of the range computation). -/
def get_weekly_leaderboard (db : List Activity) (users : List User)
    (date : DT) : List LeaderboardEntry :=
  get_range_leaderboard db users
    (get_week_boundaries date).1 (get_week_boundaries date).2

/-- The Run activities of one athlete in the period, order-free. -/
def athleteRunActivities (db : List Activity) (start_date end_date : DT)
    (aid : Int) : List Activity :=
  (db.filter (runFilter start_date end_date)).filter
    (fun a => a.athlete_id == aid)

/-- The per-athlete total only depends on the multiset of activities: every
ingredient (a sum over a map, the count of distinct dates, the count of
races) is invariant under permutation. -/
theorem totalPointsOf_perm (l1 l2 : List Activity) (h : List.Perm l1 l2) :
    totalPointsOf l1 = totalPointsOf l2 := by
  unfold totalPointsOf
  rw [(h.map (fun a => calculate_base_points a.moving_time)).sum_eq,
    (h.map (fun a => a.start_date_local.date)).dedup.length_eq,
    (h.filter (fun a => a.workout_type == some 1)).length_eq]

/-- The athlete_id component of mkEntry. -/
theorem mkEntry_athlete_id (aid : Int) (u : User) (l : List Activity) :
    (mkEntry aid u l).athlete_id = aid := rfl

/-- The total_points component of mkEntry. -/
theorem mkEntry_total_points (aid : Int) (u : User) (l : List Activity) :
    (mkEntry aid u l).total_points = totalPointsOf l := rfl

/-- Stability of orderedInsert: when elements satisfying p are mutually
related by r, inserting a keeps the p-filtered subsequence intact. -/
theorem filter_orderedInsert (r : α → α → Prop) [DecidableRel r]
    (p : α → Bool) (a : α) (l : List α)
    (hp : ∀ b, p a = true → p b = true → r a b) :
    (List.orderedInsert r a l).filter p
      = if p a then a :: l.filter p else l.filter p := by
  induction l with
  | nil =>
    rcases hpa : p a with _ | _ <;> simp [List.orderedInsert, List.filter, hpa]
  | cons b l ih =>
    by_cases hr : r a b
    · rw [List.orderedInsert, if_pos hr]
      rcases hpa : p a with _ | _ <;> simp [List.filter_cons, hpa]
    · rw [List.orderedInsert, if_neg hr]
      rcases hpa : p a with _ | _
      · rcases hpb : p b with _ | _ <;>
          simp [List.filter_cons, hpa, hpb, ih, hpa]
      · have hpb : p b = false := by
          rcases hpbv : p b with _ | _
          · rfl
          · exact absurd (hp b hpa hpbv) hr
        simp [List.filter_cons, hpa, hpb, ih]

/-- Stability of insertionSort: the p-filtered subsequence is untouched
when all p-elements are mutually related by r. -/
theorem filter_insertionSort (r : α → α → Prop) [DecidableRel r]
    (p : α → Bool) (l : List α)
    (hp : ∀ a b, p a = true → p b = true → r a b) :
    (List.insertionSort r l).filter p = l.filter p := by
  induction l with
  | nil => rfl
  | cons a l ih =>
    rw [List.insertionSort, filter_orderedInsert r p a _ (hp a)]
    rcases hpa : p a with _ | _ <;> simp [List.filter_cons, hpa, ih]

/-- The group blocks the leaderboard computations iterate carry strictly
increasing athlete ids. -/
theorem athlete_ids_strict_mono (db : List Activity) (s e : DT) :
    ((queryRunActivities db s e).map (fun a => a.athlete_id)).dedup.Pairwise
      (fun x y => x < y) := by
  have hsorted : (queryRunActivities db s e).Pairwise activityOrder :=
    List.sorted_insertionSort activityOrder (db.filter (runFilter s e))
  have hle : ((queryRunActivities db s e).map (fun a => a.athlete_id)).Pairwise
      (fun x y => x ≤ y) := by
    apply hsorted.map
    intro a b hab
    unfold activityOrder at hab
    omega
  have hle2 := hle.sublist
    ((queryRunActivities db s e).map (fun a => a.athlete_id)).dedup_sublist
  have hne :=
    List.nodup_dedup ((queryRunActivities db s e).map (fun a => a.athlete_id))
  exact (hle2.and hne).imp (fun h => lt_of_le_of_ne h.1 h.2)

/-- basePoints(60 k) = k: exact minute counts round to themselves. -/
theorem calculate_base_points_60k (k : Int) : calculate_base_points (60 * k) = k := by
  unfold calculate_base_points pyRound
  have h : (((60 * k : Int) : Rat)) / 60 = (k : Rat) := by
    push_cast
    field_simp
  rw [h]
  simp

/-- A produced entry always carries the athlete id it was grouped under. -/
theorem leaderboardEntryFor_some_id (users : List User)
    (activities : List Activity) (aid : Int) (ent : LeaderboardEntry)
    (h : leaderboardEntryFor users activities aid = some ent) :
    ent.athlete_id = aid := by
  unfold leaderboardEntryFor at h
  cases hfind : users.find? (fun u => u.id == aid) with
  | none =>
    rw [hfind] at h
    simp at h
  | some u =>
    rw [hfind] at h
    simp only at h
    split at h
    · cases h
      exact mkEntry_athlete_id aid u _
    · cases h
  
/-- The loop body produces an entry exactly when the athlete has a user row
and the computed total is positive. -/
theorem leaderboardEntryFor_isSome_iff (users : List User)
    (activities : List Activity) (aid : Int) :
    (∃ ent, leaderboardEntryFor users activities aid = some ent) ↔
      ((∃ u ∈ users, u.id = aid) ∧
       0 < totalPointsOf (activities.filter (fun a => a.athlete_id == aid))) := by
  unfold leaderboardEntryFor
  cases hfind : users.find? (fun u => u.id == aid) with
  | none =>
    simp only [hfind]
    constructor
    · rintro ⟨ent, h⟩
      cases h
    · rintro ⟨⟨u, hu, hid⟩, -⟩
      have := List.find?_eq_none.mp hfind u hu
      simp [hid] at this
  | some u =>
    simp only [hfind]
    constructor
    · rintro ⟨ent, h⟩
      split at h
      · next h0 =>
        refine ⟨⟨u, List.mem_of_find?_eq_some hfind, ?_⟩, ?_⟩
        · simpa using List.find?_some hfind
        · rw [← mkEntry_total_points aid u]
          exact h0
      · cases h
    · rintro ⟨-, h0⟩
      refine ⟨mkEntry aid u (activities.filter (fun a => a.athlete_id == aid)), ?_⟩
      rw [if_pos (by rw [mkEntry_total_points]; exact h0)]

/-- Membership characterisation of the range leaderboard under the
amendment: an athlete id appears iff it has a qualifying Run activity, a
user row, and a positive computed total. -/
theorem mem_range_leaderboard_ids (db : List Activity) (users : List User)
    (s e : DT) (aid : Int) :
    aid ∈ (get_range_leaderboard db users s e).map (fun ent => ent.athlete_id) ↔
      ((∃ a ∈ db.filter (runFilter s e), a.athlete_id = aid) ∧
       (∃ u ∈ users, u.id = aid) ∧
       0 < totalPointsOf (athleteRunActivities db s e aid)) := by
  have hqperm : List.Perm (queryRunActivities db s e) (db.filter (runFilter s e)) :=
    List.perm_insertionSort activityOrder (db.filter (runFilter s e))
  have hfperm : List.Perm
      ((queryRunActivities db s e).filter (fun a => a.athlete_id == aid))
      (athleteRunActivities db s e aid) := by
    unfold athleteRunActivities
    exact hqperm.filter (fun a => a.athlete_id == aid)
  have hperm : List.Perm (get_range_leaderboard db users s e)
      ((((queryRunActivities db s e).map (fun a => a.athlete_id)).dedup).filterMap
        (leaderboardEntryFor users (queryRunActivities db s e))) := by
    unfold get_range_leaderboard
    exact List.perm_insertionSort entryOrder _
  rw [List.mem_map]
  constructor
  · rintro ⟨ent, hent, hid⟩
    have hent2 := hperm.subset hent
    rcases List.mem_filterMap.mp hent2 with ⟨x, hx, hfx⟩
    have hxa : ent.athlete_id = x := leaderboardEntryFor_some_id _ _ _ _ hfx
    have hxaid : x = aid := by rw [← hxa, hid]
    subst hxaid
    have hiff := (leaderboardEntryFor_isSome_iff users
      (queryRunActivities db s e) x).mp ⟨ent, hfx⟩
    refine ⟨?_, hiff.1, ?_⟩
    · rcases List.mem_map.mp (List.mem_dedup.mp hx) with ⟨a, ha, haid⟩
      exact ⟨a, hqperm.subset ha, haid⟩
    · rw [← totalPointsOf_perm _ _ hfperm]
      exact hiff.2
  · rintro ⟨⟨a, ha, haid⟩, huser, htot⟩
    have hq : a ∈ queryRunActivities db s e := hqperm.symm.subset ha
    have hx : aid ∈ ((queryRunActivities db s e).map (fun a => a.athlete_id)).dedup :=
      List.mem_dedup.mpr (List.mem_map.mpr ⟨a, hq, haid⟩)
    have hsome : ∃ ent, leaderboardEntryFor users (queryRunActivities db s e) aid
        = some ent := by
      refine (leaderboardEntryFor_isSome_iff users _ aid).mpr ⟨huser, ?_⟩
      rw [totalPointsOf_perm _ _ hfperm]
      exact htot
    rcases hsome with ⟨ent, hfx⟩
    exact ⟨ent, hperm.symm.subset (List.mem_filterMap.mpr ⟨aid, hx, hfx⟩),
      leaderboardEntryFor_some_id _ _ _ _ hfx⟩

/-- A concrete qualifying payload used by the concrete leaderboard
scenarios below. -/
def samplePayload : ActivitySchema :=
  { id := 77, name := "sample run", distance := 10000, moving_time := 3600,
    elapsed_time := 3700, total_elevation_gain := 50, type := "Run",
    sport_type := "Run", start_date := ⟨3, 0⟩, start_date_local := ⟨3, 0⟩,
    timezone := "UTC", athlete_id := 1, kudos_count := none,
    comment_count := none, athlete_count := none, average_speed := none,
    max_speed := none, workout_type := none }

/-- A stored Run by athlete 1 on day 3 (inside the week [0, 7)), one hour
of moving time, no race. -/
def sampleRun : Activity := new_activity samplePayload 0

/-- A one-row activities table with no matching users table entry. -/
def sampleDb : List Activity := [sampleRun]

/-- The sample athlete's computed total for the sample week is 60 points
(60 base, no bonuses). -/
theorem sample_total_sixty :
    totalPointsOf (athleteRunActivities sampleDb ⟨0, 0⟩ ⟨7, 0⟩ 1) = 60 := by
  have h1 : athleteRunActivities sampleDb ⟨0, 0⟩ ⟨7, 0⟩ 1 = [sampleRun] := rfl
  have hb : calculate_base_points 3600 = 60 := by
    have h60 := calculate_base_points_60k 60
    norm_num at h60
    exact h60
  rw [h1]
  unfold totalPointsOf
  simp [sampleRun, samplePayload, new_activity, hb]
  rfl

/-- C2 as stated is false: athlete 1 has a qualifying Run with a positive
computed total (60), yet with no users-table row the leaderboard omits the
athlete entirely. -/
theorem C2_counterexample :
    (∃ a ∈ sampleDb.filter (runFilter ⟨0, 0⟩ ⟨7, 0⟩), a.athlete_id = 1) ∧
    0 < totalPointsOf (athleteRunActivities sampleDb ⟨0, 0⟩ ⟨7, 0⟩ 1) ∧
    (1 : Int) ∉ (get_range_leaderboard sampleDb [] ⟨0, 0⟩ ⟨7, 0⟩).map
      (fun ent => ent.athlete_id) := by
  refine ⟨⟨sampleRun, by decide, rfl⟩, ?_, ?_⟩
  · rw [sample_total_sixty]
    decide
  · intro hmem
    rcases (mem_range_leaderboard_ids sampleDb [] ⟨0, 0⟩ ⟨7, 0⟩ 1).mp hmem
      with ⟨-, ⟨u, hu, -⟩, -⟩
    cases hu

/-- C2 amended: among athletes that do have a users-table row, the
leaderboard contains exactly those with a qualifying Run activity and a
positive computed total; it is sorted descending by total points; entries
with equal totals appear in grouping order (strictly ascending athlete id);
and the weekly computation is the range computation on the week window. -/
theorem C2_leaderboard_amended (db : List Activity) (users : List User)
    (s e : DT) :
    (∀ aid : Int,
      aid ∈ (get_range_leaderboard db users s e).map (fun ent => ent.athlete_id) ↔
        ((∃ a ∈ db.filter (runFilter s e), a.athlete_id = aid) ∧
         (∃ u ∈ users, u.id = aid) ∧
         0 < totalPointsOf (athleteRunActivities db s e aid))) ∧
    (get_range_leaderboard db users s e).Pairwise entryOrder ∧
    (∀ t : Int,
      ((get_range_leaderboard db users s e).filter
          (fun ent => ent.total_points == t)).Pairwise
        (fun x y => x.athlete_id < y.athlete_id)) ∧
    (∀ d : DT, get_weekly_leaderboard db users d
      = get_range_leaderboard db users
          (get_week_boundaries d).1 (get_week_boundaries d).2) := by
  refine ⟨fun aid => mem_range_leaderboard_ids db users s e aid, ?_, ?_, fun d => rfl⟩
  · unfold get_range_leaderboard
    exact List.sorted_insertionSort entryOrder _
  · intro t
    unfold get_range_leaderboard
    rw [filter_insertionSort entryOrder (fun ent => ent.total_points == t) _ ?hp]
    case hp =>
      intro a b ha hb
      unfold entryOrder
      simp only [beq_iff_eq] at ha hb
      omega
    have hids := athlete_ids_strict_mono db s e
    have hpair : (((queryRunActivities db s e).map
        (fun a => a.athlete_id)).dedup).Pairwise
        (fun x y => ∀ p ∈ leaderboardEntryFor users (queryRunActivities db s e) x,
          ∀ q ∈ leaderboardEntryFor users (queryRunActivities db s e) y,
            p.athlete_id < q.athlete_id) := by
      refine hids.imp ?_
      intro a b hab p hp q hq
      rw [leaderboardEntryFor_some_id _ _ _ _ (Option.mem_def.mp hp),
        leaderboardEntryFor_some_id _ _ _ _ (Option.mem_def.mp hq)]
      exact hab
    exact (List.Pairwise.filterMap _ (fun a b h => h) hpair).filter _

/-- Witness for C2 at a concrete table, users list and date. -/
theorem C2_witness :
    get_weekly_leaderboard sampleDb [] ⟨3, 0⟩
      = get_range_leaderboard sampleDb []
          (get_week_boundaries ⟨3, 0⟩).1 (get_week_boundaries ⟨3, 0⟩).2 :=
  (C2_leaderboard_amended sampleDb [] ⟨0, 0⟩ ⟨7, 0⟩).2.2.2 ⟨3, 0⟩

/-- C10: an athlete with qualifying Run activities but no users-table row
is silently omitted from both the range and the weekly leaderboard — no
entry is produced and no error is raised (the skip is a plain continue). -/
theorem C10_missing_user_omitted (db : List Activity) (users : List User)
    (s e d : DT) (aid : Int) (habsent : ∀ u ∈ users, u.id ≠ aid) :
    aid ∉ (get_range_leaderboard db users s e).map (fun ent => ent.athlete_id) ∧
    aid ∉ (get_weekly_leaderboard db users d).map (fun ent => ent.athlete_id) := by
  constructor
  · intro hmem
    rcases (mem_range_leaderboard_ids db users s e aid).mp hmem
      with ⟨-, ⟨u, hu, hid⟩, -⟩
    exact habsent u hu hid
  · intro hmem
    unfold get_weekly_leaderboard at hmem
    rcases (mem_range_leaderboard_ids db users _ _ aid).mp hmem
      with ⟨-, ⟨u, hu, hid⟩, -⟩
    exact habsent u hu hid

/-- Witness for C10: athlete 1 has a qualifying Run and a positive total
but no user row, and appears in neither leaderboard. -/
theorem C10_witness :
    (1 : Int) ∉ (get_range_leaderboard sampleDb [] ⟨0, 0⟩ ⟨7, 0⟩).map
      (fun ent => ent.athlete_id) ∧
    (1 : Int) ∉ (get_weekly_leaderboard sampleDb [] ⟨3, 0⟩).map
      (fun ent => ent.athlete_id) :=
  C10_missing_user_omitted sampleDb [] ⟨0, 0⟩ ⟨7, 0⟩ ⟨3, 0⟩ 1 (by simp)

/-! ## Sync service (src/sync/service.py) -/

/-- The mutable state of SyncService.sync_athlete_activities between loop
iterations: the store, the created/updated counters, the error list and the
page counter. -/
structure SyncState where
  db : List Activity
  synced_count : Nat
  updated_count : Nat
  errors : List String
  page : Nat
deriving Repr

/-- The summary dict sync_athlete_activities returns. -/
structure SyncSummary where
  athlete_id : Int
  synced_count : Nat
  updated_count : Nat
  total_processed : Nat
  errors : List String
  pages_processed : Nat
deriving Repr

/-- The per-item loop of sync_athlete_activities: check existence, update
or create, count; any exception from the store (modelled by the oracle
fails, the environment's choice of which item writes raise) is caught,
its message recorded, and the loop continues with the next item. -/
def process_items (fails : ActivitySchema → Option String) (t : Int) :
    List ActivitySchema → SyncState → SyncState
  | [], s => s
  | item :: rest, s =>
    match fails item with
    | some msg =>
      process_items fails t rest
        { s with errors := s.errors ++
            ["Failed to sync activity " ++ toString item.id ++ ": " ++ msg] }
    | none =>
      match get_activity s.db item.id with
      | some _ =>
        process_items fails t rest
          { s with db := apply_update s.db item t,
                   updated_count := s.updated_count + 1 }
      | none =>
        process_items fails t rest
          { s with db := s.db ++ [new_activity item t],
                   synced_count := s.synced_count + 1 }

/-- The page loop of sync_athlete_activities.  The remote API is modelled
by the list of page fetch results (position k holds the result of fetching
page k+1; past the end every page is empty): an empty page breaks the loop,
a fetch exception is caught by the outer try, recorded, and ends the loop,
and a non-empty page is processed item by item before advancing. -/
def sync_loop (fails : ActivitySchema → Option String) (t : Int) :
    List (Except String (List ActivitySchema)) → SyncState → SyncState
  | [], s => s
  | Except.error msg :: _, s =>
    { s with errors := s.errors ++
        ["Error during sync on page " ++ toString s.page ++ ": " ++ msg] }
  | Except.ok [] :: _, s => s
  | Except.ok (item :: items) :: rest, s =>
    sync_loop fails t rest
      (let s2 := process_items fails t (item :: items) s
       { s2 with page := s2.page + 1 })

/-- SyncService.sync_athlete_activities after the client has been obtained:
run the page loop from page 1 over the remote results and return the
structured summary. -/
def sync_athlete_activities (fails : ActivitySchema → Option String)
    (t : Int) (athlete_id : Int) (db0 : List Activity)
    (pages : List (Except String (List ActivitySchema))) : SyncSummary :=
  let s := sync_loop fails t pages
    { db := db0, synced_count := 0, updated_count := 0, errors := [], page := 1 }
  { athlete_id := athlete_id
    synced_count := s.synced_count
    updated_count := s.updated_count
    total_processed := s.synced_count + s.updated_count
    errors := s.errors
    pages_processed := s.page - 1 }

/-- Specification view: the error messages a page's items contribute. -/
def itemErrors (fails : ActivitySchema → Option String)
    (items : List ActivitySchema) : List String :=
  items.filterMap (fun it => (fails it).map
    (fun m => "Failed to sync activity " ++ toString it.id ++ ": " ++ m))

/-- Specification view: how many of a page's items upsert successfully. -/
def successCount (fails : ActivitySchema → Option String)
    (items : List ActivitySchema) : Nat :=
  (items.filter (fun it => (fails it).isNone)).length

/-- Specification view: the non-empty successfully fetched pages before the
first terminator (an empty page, a fetch error, or the end). -/
def okPages : List (Except String (List ActivitySchema)) →
    List (List ActivitySchema)
  | [] => []
  | Except.error _ :: _ => []
  | Except.ok [] :: _ => []
  | Except.ok (item :: items) :: rest => (item :: items) :: okPages rest

/-- Specification view: the recorded message when the loop ends on a fetch
error, given the page number the loop starts from. -/
def fetchErrorMsg : List (Except String (List ActivitySchema)) → Nat →
    Option String
  | [], _ => none
  | Except.error m :: _, p =>
    some ("Error during sync on page " ++ toString p ++ ": " ++ m)
  | Except.ok [] :: _, _ => none
  | Except.ok (_ :: _) :: rest, p => fetchErrorMsg rest (p + 1)

/-- The per-item loop: counts advance by the number of successful upserts,
exactly the failed items append their messages in order, and the page
counter is untouched. -/
theorem process_items_spec (fails : ActivitySchema → Option String) (t : Int)
    (items : List ActivitySchema) (s : SyncState) :
    (process_items fails t items s).synced_count
        + (process_items fails t items s).updated_count
      = s.synced_count + s.updated_count + successCount fails items ∧
    (process_items fails t items s).errors = s.errors ++ itemErrors fails items ∧
    (process_items fails t items s).page = s.page := by
  induction items generalizing s with
  | nil =>
    simp [process_items, successCount, itemErrors]
  | cons item rest ih =>
    cases hf : fails item with
    | some msg =>
      have h := ih { s with errors := s.errors ++
          ["Failed to sync activity " ++ toString item.id ++ ": " ++ msg] }
      unfold process_items
      rw [hf]
      refine ⟨?_, ?_, h.2.2⟩
      · rw [h.1]
        unfold successCount
        simp [List.filter_cons, hf]
      · rw [h.2.1]
        unfold itemErrors
        simp [List.filterMap_cons, hf]
    | none =>
      cases hg : get_activity s.db item.id with
      | some a0 =>
        have h := ih { s with db := apply_update s.db item t,
                              updated_count := s.updated_count + 1 }
        unfold process_items
        rw [hf, hg]
        refine ⟨?_, ?_, h.2.2⟩
        · rw [h.1]
          unfold successCount
          simp [List.filter_cons, hf]
          omega
        · rw [h.2.1]
          unfold itemErrors
          simp [List.filterMap_cons, hf]
      | none =>
        have h := ih { s with db := s.db ++ [new_activity item t],
                              synced_count := s.synced_count + 1 }
        unfold process_items
        rw [hf, hg]
        refine ⟨?_, ?_, h.2.2⟩
        · rw [h.1]
          unfold successCount
          simp [List.filter_cons, hf]
          omega
        · rw [h.2.1]
          unfold itemErrors
          simp [List.filterMap_cons, hf]

/-- The page loop: counters accumulate the successes of the processed
pages, the error list accumulates each page's item errors in order followed
by the fetch error when one ends the loop, and the page counter advances by
the number of processed pages. -/
theorem sync_loop_spec (fails : ActivitySchema → Option String) (t : Int)
    (pages : List (Except String (List ActivitySchema))) (s : SyncState) :
    (sync_loop fails t pages s).synced_count
        + (sync_loop fails t pages s).updated_count
      = s.synced_count + s.updated_count
          + ((okPages pages).map (successCount fails)).sum ∧
    (sync_loop fails t pages s).errors
      = s.errors ++ ((okPages pages).map (itemErrors fails)).flatten
          ++ (fetchErrorMsg pages s.page).toList ∧
    (sync_loop fails t pages s).page = s.page + (okPages pages).length := by
  induction pages generalizing s with
  | nil =>
    simp [sync_loop, okPages, fetchErrorMsg]
  | cons pr rest ih =>
    match pr with
    | Except.error msg =>
      simp [sync_loop, okPages, fetchErrorMsg]
    | Except.ok [] =>
      simp [sync_loop, okPages, fetchErrorMsg]
    | Except.ok (item :: items) =>
      have hpi := process_items_spec fails t (item :: items) s
      have h := ih { process_items fails t (item :: items) s with
        page := (process_items fails t (item :: items) s).page + 1 }
      unfold sync_loop
      refine ⟨?_, ?_, ?_⟩
      · rw [h.1]
        simp only [okPages, List.map_cons, List.sum_cons]
        omega
      · rw [h.2.1]
        simp only [hpi.2.1, okPages, List.map_cons, List.flatten]
        rw [hpi.2.2]
        simp [List.append_assoc, fetchErrorMsg]
      · rw [h.2.2]
        simp only [okPages, List.length_cons]
        rw [hpi.2.2]
        omega

/-- A successfully fetched non-empty page is kept by okPages. -/
theorem okPages_ok_cons (items : List ActivitySchema)
    (rest : List (Except String (List ActivitySchema))) (h : items ≠ []) :
    okPages (Except.ok items :: rest) = items :: okPages rest := by
  cases items with
  | nil => exact absurd rfl h
  | cons i is => rfl

/-- When every fetch succeeds with a non-empty page, the loop consumes all
of them. -/
theorem okPages_all_ok (pages : List (Except String (List ActivitySchema)))
    (h : ∀ pr ∈ pages, ∃ item items, pr = Except.ok (item :: items)) :
    (okPages pages).length = pages.length := by
  induction pages with
  | nil => rfl
  | cons pr rest ih =>
    rcases h pr (List.mem_cons_self pr rest) with ⟨item, items, rfl⟩
    simp only [okPages, List.length_cons]
    rw [ih (fun q hq => h q (List.mem_cons_of_mem _ hq))]

/-- An oracle that never fails lets every item through. -/
theorem successCount_none (items : List ActivitySchema) :
    successCount (fun _ => none) items = items.length := by
  unfold successCount
  induction items with
  | nil => rfl
  | cons i is ih => simp [List.filter_cons, ih]

/-- The 200 items the scenario's page 1 returns. -/
def scenarioItems : List ActivitySchema :=
  (List.range 200).map (fun n => { samplePayload with id := Int.ofNat n })

/-- C6: the backfill run never raises once under way — for every remote
behaviour (any sequence of page results, any store failures) it returns a
structured summary in which total_processed is the created plus updated
count, the counters equal the number of items that upserted successfully
across the processed pages, the error list holds exactly the per-item
failure messages in order followed by the fetch error if one stopped the
loop, and pages_processed counts the non-empty pages processed. -/
theorem C6_backfill_summary (fails : ActivitySchema → Option String)
    (t : Int) (aid : Int) (db0 : List Activity)
    (pages : List (Except String (List ActivitySchema))) :
    (sync_athlete_activities fails t aid db0 pages).total_processed
      = (sync_athlete_activities fails t aid db0 pages).synced_count
          + (sync_athlete_activities fails t aid db0 pages).updated_count ∧
    (sync_athlete_activities fails t aid db0 pages).total_processed
      = ((okPages pages).map (successCount fails)).sum ∧
    (sync_athlete_activities fails t aid db0 pages).errors
      = ((okPages pages).map (itemErrors fails)).flatten
          ++ (fetchErrorMsg pages 1).toList ∧
    (sync_athlete_activities fails t aid db0 pages).pages_processed
      = (okPages pages).length := by
  have h := sync_loop_spec fails t pages
    { db := db0, synced_count := 0, updated_count := 0, errors := [], page := 1 }
  unfold sync_athlete_activities
  refine ⟨rfl, ?_, ?_, ?_⟩
  · simpa using h.1
  · simpa using h.2.1
  · simp only
    rw [h.2.2]
    simp

/-- C5: in the scenario where page 1 returns 200 items and page 2 is empty
with every upsert succeeding, the summary reports pages_processed = 1 and
total_processed = 200; and in general, as long as fetches succeed with
non-empty pages, the loop keeps advancing (pages start at 1, no upper
bound) and only the empty page ends it, processing every such page. -/
theorem C5_backfill_scenario :
    ((sync_athlete_activities (fun _ => none) 0 7 []
        [Except.ok scenarioItems]).pages_processed = 1 ∧
     (sync_athlete_activities (fun _ => none) 0 7 []
        [Except.ok scenarioItems]).total_processed = 200) ∧
    (∀ (fails : ActivitySchema → Option String) (t aid : Int)
        (db0 : List Activity)
        (pages : List (Except String (List ActivitySchema))),
      (∀ pr ∈ pages, ∃ item items, pr = Except.ok (item :: items)) →
      (sync_athlete_activities fails t aid db0 pages).pages_processed
        = pages.length) := by
  constructor
  · have hlen : scenarioItems.length = 200 := by
      unfold scenarioItems
      simp
    have hne : scenarioItems ≠ [] := by
      intro hcontra
      rw [hcontra] at hlen
      simp at hlen
    have hok : okPages [Except.ok scenarioItems] = [scenarioItems] :=
      okPages_ok_cons scenarioItems [] hne
    have h := C6_backfill_summary (fun _ => none) 0 7 [] [Except.ok scenarioItems]
    constructor
    · rw [h.2.2.2, hok]
      rfl
    · rw [h.2.1, hok]
      simp only [List.map_cons, List.map_nil, List.sum_cons, List.sum_nil,
        add_zero]
      rw [successCount_none, hlen]
  · intro fails t aid db0 pages hall
    rw [(C6_backfill_summary fails t aid db0 pages).2.2.2]
    exact okPages_all_ok pages hall

/-- Witness for C5's general clause at a concrete two-page run. -/
theorem C5_witness :
    (sync_athlete_activities (fun _ => none) 0 7 []
      [Except.ok [samplePayload], Except.ok [samplePayload]]).pages_processed = 2 :=
  C5_backfill_scenario.2 (fun _ => none) 0 7 []
    [Except.ok [samplePayload], Except.ok [samplePayload]]
    (by
      intro pr hpr
      rcases List.mem_cons.mp hpr with rfl | hpr2
      · exact ⟨samplePayload, [], rfl⟩
      · rcases List.mem_cons.mp hpr2 with rfl | hpr3
        · exact ⟨samplePayload, [], rfl⟩
        · cases hpr3)
